import Mathlib

/-!
Verification development for the NotionMCP agent system.

The definitions below are a shallow embedding of the Python sources:
- `src/client.py` / `src/web_server.py`: the sanitizer (`_strip_surrogates`,
  `_sanitize`), the tool-schema adapter (`_mcp_schema_to_openai_tool`) and the
  conversation orchestrator loop (`process_chat_with_ai`, `chat_loop`);
- `src/server.py`: the recursive block fetcher
  (`_list_block_children_recursive_with_client`), the markdown renderer
  (`_blocks_to_markdown`), the plain-mode marker stripping and the
  `update_notion_page` payload construction.

Python strings may contain lone surrogate code points, so strings flowing
through the sanitizer are modelled as lists of raw code points (`PyStr`).
Strings that never carry surrogates (tool names, message text at the loop
level) are modelled as Lean `String`.
-/

set_option maxRecDepth 4000

/-! ## Sanitizer (src/client.py lines 21-39, src/web_server.py lines 64-85) -/

/-- A Python string: a sequence of raw Unicode code points, possibly
containing lone surrogates (which Lean `Char` cannot represent). -/
abbrev PyStr := List Nat

/-- The code points deleted by `_SURR_MAP = {i: None for i in range(0xD800, 0xE000)}`. -/
def isSurrogate (c : Nat) : Bool := 0xD800 ≤ c && c ≤ 0xDFFF

/-- `_strip_surrogates(s)`: `s.translate(_SURR_MAP)` deletes every surrogate
code point and keeps every other code point, in order. -/
def strip_surrogates : PyStr → PyStr
  | [] => []
  | c :: cs => if isSurrogate c then strip_surrogates cs else c :: strip_surrogates cs

/-- A Python dict key as seen by `_sanitize`: either a string (sanitized) or
any other hashable object (passed through unchanged). -/
inductive PyKey where
  | str (s : PyStr)
  | obj (tag : Nat)
deriving DecidableEq

/-- A Python value as traversed by `_sanitize`: a string, a list, a dict, or
any other object (returned unchanged by the final `return obj` branch). -/
inductive PyValue where
  | str (s : PyStr)
  | list (xs : List PyValue)
  | dict (entries : List (PyKey × PyValue))
  | obj (tag : Nat)

/-- The key position of the dict comprehension in `_sanitize`:
`(_sanitize(k) if isinstance(k, str) else k)`. -/
def sanitizeKey : PyKey → PyKey
  | .str s => .str (strip_surrogates s)
  | .obj t => .obj t

mutual

/-- `_sanitize(obj)`: strings are stripped of surrogates, lists and dicts are
rebuilt element-wise (string keys sanitized, other keys unchanged), anything
else is returned as-is. -/
def sanitize : PyValue → PyValue
  | .str s => .str (strip_surrogates s)
  | .list xs => .list (sanitizeList xs)
  | .dict es => .dict (sanitizeEntries es)
  | .obj t => .obj t

/-- `[_sanitize(v) for v in obj]`. -/
def sanitizeList : List PyValue → List PyValue
  | [] => []
  | v :: vs => sanitize v :: sanitizeList vs

/-- The dict comprehension of `_sanitize`. -/
def sanitizeEntries : List (PyKey × PyValue) → List (PyKey × PyValue)
  | [] => []
  | (k, v) :: es => (sanitizeKey k, sanitize v) :: sanitizeEntries es

end

theorem strip_surrogates_eq_filter (s : PyStr) :
    strip_surrogates s = s.filter (fun c => !isSurrogate c) := by
  induction s with
  | nil => rfl
  | cons c cs ih =>
    by_cases h : isSurrogate c <;> simp [strip_surrogates, List.filter, h, ih]

theorem strip_surrogates_no_surrogate (s : PyStr) :
    ∀ c ∈ strip_surrogates s, isSurrogate c = false := by
  intro c hc
  rw [strip_surrogates_eq_filter] at hc
  have := List.of_mem_filter hc
  simpa using this

theorem strip_surrogates_idem (s : PyStr) :
    strip_surrogates (strip_surrogates s) = strip_surrogates s := by
  induction s with
  | nil => rfl
  | cons c cs ih =>
    by_cases h : isSurrogate c <;> simp [strip_surrogates, h, ih]

mutual

theorem sanitize_idem : (v : PyValue) → sanitize (sanitize v) = sanitize v
  | .str s => by simp [sanitize, strip_surrogates_idem]
  | .list xs => by simp [sanitize, sanitizeList_idem xs]
  | .dict es => by simp [sanitize, sanitizeEntries_idem es]
  | .obj t => rfl

theorem sanitizeList_idem : (xs : List PyValue) → sanitizeList (sanitizeList xs) = sanitizeList xs
  | [] => rfl
  | v :: vs => by simp [sanitizeList, sanitize_idem v, sanitizeList_idem vs]

theorem sanitizeEntries_idem :
    (es : List (PyKey × PyValue)) → sanitizeEntries (sanitizeEntries es) = sanitizeEntries es
  | [] => rfl
  | (k, v) :: es => by
    have hk : sanitizeKey (sanitizeKey k) = sanitizeKey k := by
      cases k <;> simp [sanitizeKey, strip_surrogates_idem]
    simp [sanitizeEntries, hk, sanitize_idem v, sanitizeEntries_idem es]

end

/-! ## Python string edits used by the plain-text reduction
(src/server.py lines 965-978, 827-840, 1032-1045) -/

/-- One pass of Python `s.replace(pat, "")` with non-empty pattern
`p :: ps`: scan left to right, delete each non-overlapping occurrence.
The scan shortens the text at every step, so running it with
`fuel = text.length` never hits the out-of-fuel arm. -/
def removeSub (p : Char) (ps : List Char) : Nat → List Char → List Char
  | 0, l => l
  | _, [] => []
  | fuel + 1, c :: rest =>
    if (p :: ps).isPrefixOf (c :: rest) then removeSub p ps fuel (rest.drop ps.length)
    else c :: removeSub p ps fuel rest

/-- Python `s.replace(pat, "")` (deleting every occurrence of `pat`). -/
def pyReplaceDel (pat : String) (s : String) : String :=
  match pat.data with
  | [] => s
  | p :: ps => ⟨removeSub p ps s.data.length s.data⟩

/-- Trailing-whitespace removal, Python `str.rstrip()` at the code-point level. -/
def rstripChars : List Char → List Char
  | [] => []
  | c :: l =>
    match rstripChars l with
    | [] => if c.isWhitespace then [] else [c]
    | r => c :: r

/-- Python `str.rstrip()`. -/
def pyRstrip (s : String) : String := ⟨rstripChars s.data⟩

/-- Python `str.strip()`: drop leading and trailing whitespace. -/
def pyStrip (s : String) : String := ⟨rstripChars (s.data.dropWhile Char.isWhitespace)⟩

/-! ## Document renderer `_blocks_to_markdown` (src/server.py lines 129-186) -/

/-- The type tag of a block together with its type-specific payload, as read
by `_blocks_to_markdown` (`text` is the already-stripped output of
`_rich_text_to_plain(data.get("rich_text", []))`). -/
inductive BType where
  | heading1 (text : String)
  | heading2 (text : String)
  | heading3 (text : String)
  | paragraph (text : String)
  | bulleted (text : String)
  | numbered (text : String)
  | toDo (checked : Bool) (text : String)
  | quote (text : String)
  | callout (emoji : Option String) (text : String)
  | code (language : String) (text : String)
  | toggle (text : String)
  | divider
  | image (caption : String)
  | other (tag : String) (text : String)

/-- A block dict as consumed by the renderer: its type payload and its
(already fetched) `children` list. -/
inductive RNode where
  | mk (btype : BType) (children : List RNode)

def RNode.btype : RNode → BType
  | .mk t _ => t

def RNode.children : RNode → List RNode
  | .mk _ cs => cs

/-- `indent = "  " * depth`. -/
def indentStr (depth : Nat) : String := ⟨List.replicate (2 * depth) ' '⟩

/-- `prefix = emoji or "💡"` of the callout branch (`None` and the empty
string both fall back to the default glyph). -/
def calloutGlyph : Option String → String
  | none => "💡"
  | some e => if e = "" then "💡" else e

/-- The line(s) appended for one block of the given type at the given depth
(children excluded), transcribing each branch of `_blocks_to_markdown`. -/
def blockLines (depth : Nat) : BType → List String
  | .heading1 text => [indentStr depth ++ "# " ++ text]
  | .heading2 text => [indentStr depth ++ "## " ++ text]
  | .heading3 text => [indentStr depth ++ "### " ++ text]
  | .paragraph text => [indentStr depth ++ text]
  | .bulleted text => [indentStr depth ++ "- " ++ text]
  | .numbered text => [indentStr depth ++ "1. " ++ text]
  | .toDo checked text =>
      [indentStr depth ++ "- [" ++ (if checked then "x" else " ") ++ "] " ++ text]
  | .quote text => [indentStr depth ++ "> " ++ text]
  | .callout emoji text => [indentStr depth ++ calloutGlyph emoji ++ " " ++ text]
  | .code language text =>
      [pyRstrip (indentStr depth ++ "```" ++ language), text, indentStr depth ++ "```"]
  | .toggle text => [indentStr depth ++ "▸ " ++ text]
  | .divider => [indentStr depth ++ "---"]
  | .image caption => [pyRstrip (indentStr depth ++ "![image]  " ++ caption)]
  | .other tag text => [pyRstrip (indentStr depth ++ "[" ++ tag ++ "] " ++ text)]

mutual

/-- `_blocks_to_markdown(blocks, depth)`: emit each block's own line(s), then
(`if children:`) its children at `depth + 1`, then the remaining siblings. -/
def blocks_to_markdown : List RNode → Nat → List String
  | [], _ => []
  | b :: rest, depth => nodeMarkdown b depth ++ blocks_to_markdown rest depth

/-- The loop body of `_blocks_to_markdown` for one block: its own line(s)
followed, when `children` is non-empty, by the recursive rendering of the
children one level deeper. -/
def nodeMarkdown : RNode → Nat → List String
  | .mk t cs, depth =>
      blockLines depth t
        ++ (if cs.isEmpty then [] else blocks_to_markdown cs (depth + 1))

end

/-- Number of leading space characters of a rendered line. -/
def leadingSpaces (s : String) : Nat := (s.data.takeWhile (· == ' ')).length

/-- The per-node lines that the indentation property ranges over: all of the
node's lines except the raw code-text line of a `code` block. -/
def indentedLines (depth : Nat) : BType → List String
  | .code language _ =>
      [pyRstrip (indentStr depth ++ "```" ++ language), indentStr depth ++ "```"]
  | t => blockLines depth t

/-- The first character of a character list is not a space (or the list is
empty). -/
def headNotSpaceL : List Char → Bool
  | [] => true
  | c :: _ => c != ' '

/-- The string does not start with a space character. -/
def headNotSpace (s : String) : Bool := headNotSpaceL s.data

/-- The renderer inputs produced by `_rich_text_to_plain` are `.strip()`-ed,
so the fields that open a rendered line never start with a space. -/
def indentReady : BType → Bool
  | .paragraph text => headNotSpace text
  | .callout emoji _ => headNotSpace (calloutGlyph emoji)
  | _ => true

/-! ## Document tree retriever `_list_block_children_recursive_with_client`
(src/server.py lines 96-127) -/

/-- A node of the ground-truth content tree behind the content source.
`listFails = true` models `blocks.children.list` raising for this node's id;
`children` is what the pagination loop for this id would accumulate over all
pages (the loop concatenates every page until `has_more` is false). -/
inductive Block where
  | mk (id : Nat) (hasChildren : Bool) (listFails : Bool) (children : List Block)

def Block.id : Block → Nat
  | .mk i _ _ _ => i

def Block.hasChildren : Block → Bool
  | .mk _ h _ _ => h

def Block.listFails : Block → Bool
  | .mk _ _ f _ => f

def Block.children : Block → List Block
  | .mk _ _ _ cs => cs

/-- A block dict as returned by the fetcher: the retained metadata plus the
attached `children` key (absent = `[]`). -/
inductive FNode where
  | mk (id : Nat) (hasChildren : Bool) (children : List FNode)

def FNode.id : FNode → Nat
  | .mk i _ _ => i

def FNode.hasChildren : FNode → Bool
  | .mk _ h _ => h

def FNode.children : FNode → List FNode
  | .mk _ _ _cs => _cs

/-- A raw accumulated child, before any recursion: no `children` key. -/
def shallowF (b : Block) : FNode := .mk b.id b.hasChildren []

/-- `_list_block_children_recursive_with_client(client, block_id, max_depth)`
on the node `b` (fetching the children of `b.id`): first the pagination loop
(which propagates a failure of the listing call), then, unless
`max_depth <= 0`, each accumulated child flagged `has_children` gets
`children` from the recursive call with `max_depth - 1`, an exception there
being caught and replaced by `[]`. -/
def fetchE : Nat → Block → Except Unit (List FNode)
  | 0, b => if b.listFails then .error () else .ok (b.children.map shallowF)
  | d + 1, b =>
    if b.listFails then .error ()
    else .ok (b.children.map (fun c =>
      .mk c.id c.hasChildren
        (if c.hasChildren then
          match fetchE d c with
          | .ok l => l
          | .error _ => []
        else [])))

/-- The failure-free fetch result (what `fetchE` returns when no listing call
in the subtree fails). -/
def fetchPure : Nat → List Block → List FNode
  | 0, cs => cs.map shallowF
  | d + 1, cs =>
      cs.map (fun c =>
        .mk c.id c.hasChildren (if c.hasChildren then fetchPure d c.children else []))

mutual

/-- No listing call in this subtree fails. -/
def noFail : Block → Bool
  | .mk _ _ lf cs => !lf && noFailList cs

def noFailList : List Block → Bool
  | [] => true
  | c :: cs => noFail c && noFailList cs

end

/-- `depthClipped d n`: descending from `n` with remaining budget `d`, every
node that is more than `d` levels below carries an empty `children` list. -/
def depthClipped : Nat → FNode → Bool
  | 0, n => n.children.isEmpty
  | d + 1, n => n.children.all (depthClipped d)

/-- `corr d cs ns`: the fetched list `ns` mirrors the source children `cs`
node for node (ids and `has_children` flags preserved at every level), with
descendants attached exactly down to the depth budget `d` and empty
`children` everywhere beyond it or where `has_children` is false. -/
def corr : Nat → List Block → List FNode → Bool
  | _, [], [] => true
  | 0, c :: cs, n :: ns =>
      decide (n.id = c.id) && decide (n.hasChildren = c.hasChildren)
        && n.children.isEmpty && corr 0 cs ns
  | d + 1, c :: cs, n :: ns =>
      decide (n.id = c.id) && decide (n.hasChildren = c.hasChildren)
        && (if c.hasChildren then corr d c.children n.children else n.children.isEmpty)
        && corr (d + 1) cs ns
  | _, _, _ => false

/-! ## Page content assembly and plain-mode reduction
(src/server.py lines 951-987, with the same logic at 807-865 and 1013-1054) -/

/-- `"\n".join(md_lines).strip()` over the structured rendering. -/
def joinedMarkdown (blocks : List RNode) : String :=
  pyStrip (String.intercalate "\n" (blocks_to_markdown blocks 0))

/-- The chained literal removals of the plain branch, in source order:
`md.replace("# ", "").replace("## ", "").replace("### ", "")
   .replace("- [x] ", "").replace("- [ ] ", "")`. -/
def plainReduce (md : String) : String :=
  pyReplaceDel "- [ ] "
    (pyReplaceDel "- [x] "
      (pyReplaceDel "### "
        (pyReplaceDel "## "
          (pyReplaceDel "# " md))))

/-- Python `str.lower()` at the code-point level. -/
def pyLower (s : String) : String := ⟨s.data.map Char.toLower⟩

/-- The `content`/`format` pair produced by `notion_page_content_with_token`
after the blocks have been fetched (the `format.lower() == "plain"` switch). -/
def pageContent (blocks : List RNode) (format : String) : String × String :=
  let md := joinedMarkdown blocks
  if pyLower format = "plain" then (plainReduce md, "plain") else (md, "markdown")

/-- The five marker substrings removed by the plain reduction, in the order
the source applies them. -/
def plainMarkers : List String := ["# ", "## ", "### ", "- [x] ", "- [ ] "]

/-- Sequential removal of the markers in the source's order. -/
def stripMarkersInOrder (md : String) : String :=
  plainMarkers.foldl (fun acc p => pyReplaceDel p acc) md

/-- The same five removals with the first two swapped (`"## "` before
`"# "`) — used to show the edit is order-dependent. -/
def stripMarkersSwapped (md : String) : String :=
  pyReplaceDel "- [ ] "
    (pyReplaceDel "- [x] "
      (pyReplaceDel "### "
        (pyReplaceDel "# "
          (pyReplaceDel "## " md))))

/-! ## Conversation orchestrator (src/web_server.py lines 143-260) and the
near-identical CLI loop (src/client.py lines 81-169)

Strings at this level never carry lone surrogates, so they are modelled as
Lean `String`; `_strip_surrogates` restricted to that domain is the same
per-code-point deletion as on `PyStr`. -/

/-- `_strip_surrogates` on a surrogate-free string: delete every code point
in U+D800..U+DFFF (none is representable in a Lean `Char`). -/
def strip_surrogates_str (s : String) : String :=
  ⟨s.data.filter (fun c => !(0xD800 ≤ c.toNat && c.toNat ≤ 0xDFFF))⟩

/-- One tool-call request from the completion response (`tc.id`,
`tc.function.name`, `tc.function.arguments`). -/
structure ToolCall where
  id : String
  name : String
  arguments : String
deriving DecidableEq

/-- One entry of the `tool_calls` array recorded in an assistant message
(`arguments` re-encoded from the parsed mapping via `json.dumps`). -/
structure RecCall where
  id : String
  name : String
  arguments : String
deriving DecidableEq

/-- A conversation message as the loop builds them. -/
inductive Msg where
  | system (content : String)
  | user (content : String)
  | assistant (tool_calls : List RecCall)
  | tool (tool_call_id : String) (name : String) (content : String)
deriving DecidableEq

def Msg.isAssistantMsg : Msg → Bool
  | .assistant _ => true
  | _ => false

def Msg.isToolMsg : Msg → Bool
  | .tool _ _ _ => true
  | _ => false

/-- `_sanitize(messages)` restricted to the message shapes the loop builds. -/
def sanitizeMsg : Msg → Msg
  | .system c => .system (strip_surrogates_str c)
  | .user c => .user (strip_surrogates_str c)
  | .assistant tcs =>
      .assistant (tcs.map (fun r =>
        ⟨strip_surrogates_str r.id, strip_surrogates_str r.name,
          strip_surrogates_str r.arguments⟩))
  | .tool i n c =>
      .tool (strip_surrogates_str i) (strip_surrogates_str n) (strip_surrogates_str c)

/-- A completion response: `msg.content` and `msg.tool_calls`
(`None`/empty both mean "no tool calls" under Python truthiness). -/
structure Completion where
  content : Option String
  toolCalls : List ToolCall

/-- The decoded argument payload of one tool call. -/
abbrev Args := List (String × String)

/-- The tools gated by the auto-injection branch of `process_chat_with_ai`. -/
def userAuthTools : List String :=
  ["get_user_info", "notion_search_with_user", "notion_page_content_with_user"]

/-- Python truthiness of the optional `user_id`. -/
def uidTruthy : Option String → Bool
  | none => false
  | some s => s != ""

/-- The auth-injection step (src/web_server.py lines 211-219): for a truthy
`user_id` and a tool in the per-user subset, add `user_id` when the key is
missing, then add `cookies` when `final_cookies` is non-empty and the key is
missing; otherwise leave the parsed arguments untouched. -/
def injectAuth (user_id : Option String) (final_cookies : String) (tname : String)
    (parsed : Args) : Args :=
  if uidTruthy user_id && userAuthTools.contains tname then
    let p1 := if parsed.any (fun kv => kv.1 == "user_id") then parsed
      else parsed ++ [("user_id", user_id.getD "")]
    if final_cookies != "" && !(p1.any (fun kv => kv.1 == "cookies")) then
      p1 ++ [("cookies", final_cookies)]
    else p1
  else parsed

/-- `targs = tc.function.arguments or "{}"` followed by `json.loads(targs)`
with the `JSONDecodeError` fallback to `{}`; `decode` is the JSON decoder. -/
def parsedArgs (decode : String → Option Args) (tc : ToolCall) : Args :=
  let targs := if tc.arguments = "" then "\x7b\x7d" else tc.arguments
  (decode targs).getD []

/-- The messages appended by one tool-call cycle of `process_chat_with_ai`
(lines 200-248): execute every call in request order collecting
`tool_results`, then append one assistant message recording all calls, then
one tool message per call. `encode` models `json.dumps`; `callTool` models
`mcp_client.call_tool` composed with `_to_str`. -/
def webCycle (decode : String → Option Args) (encode : Args → String)
    (callTool : String → Args → String) (user_id : Option String)
    (final_cookies : String) (tcs : List ToolCall) : List Msg :=
  let tool_results := tcs.map (fun tc =>
    let parsed := injectAuth user_id final_cookies tc.name (parsedArgs decode tc)
    (tc, parsed, callTool tc.name parsed))
  Msg.assistant (tool_results.map (fun r => ⟨r.1.id, r.1.name, encode r.2.1⟩))
    :: tool_results.map (fun r => Msg.tool r.1.id r.1.name r.2.2)

/-- The messages appended by one tool-call cycle of `chat_loop` in
src/client.py (lines 127-161): here the assistant message is appended
INSIDE the per-call loop, so each call contributes its own assistant
message followed by its tool message (and no auth injection happens). -/
def clientCycle (decode : String → Option Args) (encode : Args → String)
    (callTool : String → Args → String) (tcs : List ToolCall) : List Msg :=
  tcs.flatMap (fun tc =>
    let parsed := parsedArgs decode tc
    [Msg.assistant [⟨tc.id, tc.name, encode parsed⟩],
     Msg.tool tc.id tc.name (callTool tc.name parsed)])

/-- What a run of the loop produced: the returned text, the number of
completion requests issued, and the final message sequence. -/
structure ChatOutcome where
  response : String
  completions : Nat
  messages : List Msg
deriving DecidableEq

/-- The fixed fallback returned after the iteration cap. -/
def fallbackMessage : String := "죄송합니다. 처리 중 문제가 발생했습니다."

/-- The `while iteration < max_iterations` loop of `process_chat_with_ai`,
with `fuel` the number of remaining iterations. Each pass sanitizes the
message sequence, requests one completion (`complete`), and either runs a
tool cycle and loops or returns the stripped final text. Exhausting the cap
yields `fallbackMessage`. -/
def chatLoopWeb (complete : List Msg → Completion) (decode : String → Option Args)
    (encode : Args → String) (callTool : String → Args → String)
    (user_id : Option String) (final_cookies : String) :
    Nat → List Msg → ChatOutcome
  | 0, msgs => ⟨fallbackMessage, 0, msgs⟩
  | fuel + 1, msgs =>
    let c := complete (msgs.map sanitizeMsg)
    match c.toolCalls with
    | [] => ⟨strip_surrogates_str (c.content.getD ""), 1, msgs⟩
    | tc :: rest =>
      let appended := webCycle decode encode callTool user_id final_cookies (tc :: rest)
      let out := chatLoopWeb complete decode encode callTool user_id final_cookies
        fuel (msgs ++ appended)
      ⟨out.response, out.completions + 1, out.messages⟩

/-- The fixed part of the system prompt plus the `Current user ID` suffix. -/
def systemBase (user_id : Option String) : String :=
  "You are a helpful assistant with access to Notion tools and backend API. "
    ++ "When user asks about their Notion content, use the available tools to search and retrieve information. "
    ++ "If the user asks to update or save Notion data, you should also call the backend API. "
    ++ "Always respond in Korean. "
    ++ "Current user ID: "
    ++ (if uidTruthy user_id then user_id.getD "" else "Not provided")

/-- `auth_instruction`: `user_id="<id>"`, plus `, cookies="<cookies>"` when
cookies are present. -/
def authParams (u : String) (final_cookies : String) : String :=
  "user_id=\"" ++ u ++ "\""
    ++ (if final_cookies != "" then ", cookies=\"" ++ final_cookies ++ "\"" else "")

/-- The block appended to the system message when `user_id` is truthy. -/
def authInstruction (u : String) (final_cookies : String) : String :=
  "\nIMPORTANT AUTHENTICATION RULES:\n"
    ++ "- User ID: " ++ u ++ "\n"
    ++ "- MANDATORY: When calling ANY user-specific tool, you MUST include these exact parameters: "
    ++ authParams u final_cookies ++ "\n"
    ++ "- ALWAYS use \x27notion_search_with_user\x27 and \x27notion_page_content_with_user\x27 (never the basic versions)\n"
    ++ "- ALWAYS use \x27get_user_info\x27 with cookies before any Notion operations\n"
    ++ "- The backend API returns lowercase fields: \x27access_token\x27, \x27refresh_token\x27, etc.\n"
    ++ "- Example tool call: notion_search_with_user(" ++ authParams u final_cookies
    ++ ", query=\"search term\")\n"
    ++ "- If you get an access_token from backend, the user HAS authorized Notion access.\n"
    ++ "- NOTE: Authentication parameters will be automatically added to tool calls if missing.\n"

/-- The two seed messages of `process_chat_with_ai`. -/
def initialMessages (message : String) (user_id : Option String)
    (final_cookies : String) : List Msg :=
  [Msg.system (systemBase user_id
      ++ (if uidTruthy user_id then authInstruction (user_id.getD "") final_cookies else "")),
   Msg.user (strip_surrogates_str message)]

/-- `process_chat_with_ai(message, user_id, cookies)` with
`max_iterations = 10`. -/
def process_chat_with_ai (complete : List Msg → Completion)
    (decode : String → Option Args) (encode : Args → String)
    (callTool : String → Args → String) (message : String)
    (user_id : Option String) (cookies : Option String) : ChatOutcome :=
  let final_cookies := cookies.getD ""
  chatLoopWeb complete decode encode callTool user_id final_cookies 10
    (initialMessages message user_id final_cookies)

/-! ## Tool schema adapter `_mcp_schema_to_openai_tool`
(src/client.py lines 49-65, src/web_server.py lines 88-102) -/

/-- Code points of a Lean string literal, for embedding Python literals. -/
def pystr (s : String) : PyStr := s.data.map Char.toNat

/-- A tool registry entry after `_to_dict`: the fields the adapter reads.
`none` models an absent key (`t.get(...)` returning `None`). -/
structure ToolDesc where
  name : Option PyStr
  tool : Option PyStr
  description : Option PyStr
  inputSchema : Option PyValue
  input_schema : Option PyValue

/-- Python truthiness for the values the adapter branches on. -/
def pyTruthyVal : PyValue → Bool
  | .str s => !s.isEmpty
  | .list xs => !xs.isEmpty
  | .dict es => !es.isEmpty
  | .obj _ => true

/-- Python `a or b` where `a` is `t.get(key)` for a string field. -/
def orStr (a : Option PyStr) (b : PyStr) : PyStr :=
  match a with
  | some s => if s.isEmpty then b else s
  | none => b

/-- Python `a or b` where `a` is `t.get(key)` for a value field. -/
def orVal (a : Option PyValue) (b : PyValue) : PyValue :=
  match a with
  | some v => if pyTruthyVal v then v else b
  | none => b

/-- The fallback schema `{"type": "object", "properties": {}}`. -/
def defaultSchema : PyValue :=
  .dict [(.str (pystr "type"), .str (pystr "object")),
         (.str (pystr "properties"), .dict [])]

/-- `name = t.get("name") or t.get("tool") or "tool"`. -/
def chooseName (t : ToolDesc) : PyStr := orStr t.name (orStr t.tool (pystr "tool"))

/-- `schema = t.get("inputSchema") or t.get("input_schema") or {...}`. -/
def chooseSchema (t : ToolDesc) : PyValue :=
  orVal t.inputSchema (orVal t.input_schema defaultSchema)

/-- `_mcp_schema_to_openai_tool(tool)`: the returned function-schema dict. -/
def mcp_schema_to_openai_tool (t : ToolDesc) : PyValue :=
  .dict [(.str (pystr "type"), .str (pystr "function")),
         (.str (pystr "function"), .dict
           [(.str (pystr "name"), .str (strip_surrogates (chooseName t))),
            (.str (pystr "description"), .str (strip_surrogates (t.description.getD []))),
            (.str (pystr "parameters"), sanitize (chooseSchema t))])]

/-- Key lookup in an embedded dict value. -/
def dictLookup (k : PyKey) : PyValue → Option PyValue
  | .dict es => (es.find? (fun kv => kv.1 == k)).map (fun kv => kv.2)
  | _ => none

/-- The `function.name` entry of an adapted schema, when it is a string. -/
def adaptedName (v : PyValue) : Option PyStr :=
  match (dictLookup (.str (pystr "function")) v).bind (dictLookup (.str (pystr "name"))) with
  | some (.str s) => some s
  | _ => none

/-- The `function.parameters` entry of an adapted schema. -/
def adaptedParams (v : PyValue) : Option PyValue :=
  (dictLookup (.str (pystr "function")) v).bind (dictLookup (.str (pystr "parameters")))

/-- Whether a value is a JSON object (a dict). -/
def isObjectSchema : PyValue → Bool
  | .dict _ => true
  | _ => false

/-- The schema entry carries a non-empty `function.name`. -/
def hasNonEmptyName (v : PyValue) : Bool :=
  match adaptedName v with
  | some s => !s.isEmpty
  | none => false

/-- The string keeps at least one code point after surrogate stripping. -/
def hasNonSurrogate (s : PyStr) : Bool := s.any (fun c => !isSurrogate c)

/-! ## `update_notion_page` payload construction (src/server.py lines 502-563) -/

/-- What the tool body does after validating the payload: either return the
error record without touching the backend, or issue the PUT with exactly the
collected payload. -/
inductive UpdateAction where
  | noRequest (error : String)
  | putRequest (payload : List (String × String))
deriving DecidableEq

/-- The payload collected by `update_notion_page`: `if content:
payload["content"] = content`, and likewise for `notion_url` and `summary`
(Python truthiness of a string is non-emptiness). -/
def updatePayload (content notion_url summary : String) : List (String × String) :=
  (if content ≠ "" then [("content", content)] else [])
    ++ (if notion_url ≠ "" then [("notion_url", notion_url)] else [])
    ++ (if summary ≠ "" then [("summary", summary)] else [])

/-- The payload filtering and empty-payload guard of `update_notion_page`:
collect the non-empty fields, then `if not payload: return {"error": ...}`
without touching the backend, else PUT exactly that payload. -/
def update_notion_page (content notion_url summary : String) : UpdateAction :=
  let payload := updatePayload content notion_url summary
  if payload = [] then .noRequest "No fields to update provided"
  else .putRequest payload

/-! ## Shared helper lemmas -/

theorem sanitizeEntries_eq_map (es : List (PyKey × PyValue)) :
    sanitizeEntries es = es.map (fun kv => (sanitizeKey kv.1, sanitize kv.2)) := by
  induction es with
  | nil => rfl
  | cons kv es ih => cases kv; simp [sanitizeEntries, ih]

theorem strip_surrogates_ne_nil (s : PyStr) (h : hasNonSurrogate s = true) :
    strip_surrogates s ≠ [] := by
  rw [strip_surrogates_eq_filter]
  obtain ⟨c, hc, hcs⟩ := List.any_eq_true.mp h
  exact List.ne_nil_of_mem (List.mem_filter.mpr ⟨hc, hcs⟩)

/-! ## Claim theorems -/

/-- Claim C6: sanitize output contains no surrogate code point and keeps all
other code points in order; sanitizing twice equals sanitizing once on every
value built from strings, lists and dicts; string dict keys are sanitized
while non-string dict keys pass through unchanged. -/
theorem sanitize_strips_surrogates_and_idempotent :
    (∀ s : PyStr, (∀ c ∈ strip_surrogates s, isSurrogate c = false) ∧
        strip_surrogates s = s.filter (fun c => !isSurrogate c)) ∧
    (∀ v : PyValue, sanitize (sanitize v) = sanitize v) ∧
    (∀ es : List (PyKey × PyValue),
        sanitize (.dict es) = .dict (es.map (fun kv => (sanitizeKey kv.1, sanitize kv.2)))) ∧
    (∀ s : PyStr, sanitizeKey (.str s) = .str (strip_surrogates s)) ∧
    (∀ tag : Nat, sanitizeKey (.obj tag) = .obj tag) := by
  refine ⟨fun s => ⟨strip_surrogates_no_surrogate s, strip_surrogates_eq_filter s⟩,
    sanitize_idem, ?_, fun _ => rfl, fun _ => rfl⟩
  intro es
  simp [sanitize, sanitizeEntries_eq_map]

/-- Witness for C6 at a concrete value containing surrogates. -/
theorem sanitize_strips_surrogates_and_idempotent_witness :
    isSurrogate 104 = false ∧
    sanitize (sanitize (.list [.str [0xD800, 104], .dict [(.str [0xDC00], .obj 7)]]))
      = sanitize (.list [.str [0xD800, 104], .dict [(.str [0xDC00], .obj 7)]]) :=
  ⟨(sanitize_strips_surrogates_and_idempotent.1 [0xD800, 104]).1 104 (by decide),
   sanitize_strips_surrogates_and_idempotent.2.1 _⟩

/-- Claim C8: for tools in the per-user subset with a truthy caller id, the
executor adapter appends the missing `user_id`/`cookies` entries (the latter
only when cookies are supplied) and keeps every existing pair unchanged; for
any other tool, or a falsy caller id, the arguments pass through untouched. -/
theorem inject_auth_spec (user_id : Option String) (final_cookies : String)
    (tname : String) (parsed : Args) :
    ((uidTruthy user_id && userAuthTools.contains tname) = false →
        injectAuth user_id final_cookies tname parsed = parsed) ∧
    ((uidTruthy user_id && userAuthTools.contains tname) = true →
        injectAuth user_id final_cookies tname parsed
          = parsed
            ++ (if parsed.any (fun kv => kv.1 == "user_id") then []
                else [("user_id", user_id.getD "")])
            ++ (if final_cookies != "" && !(parsed.any (fun kv => kv.1 == "cookies"))
                then [("cookies", final_cookies)] else [])) := by
  have hx : (("user_id" : String) == "cookies") = false := by decide
  constructor
  · intro h
    simp only [injectAuth]
    rw [h]
    simp
  · intro h
    rw [Bool.and_eq_true] at h
    obtain ⟨ha, hb⟩ := h
    have hb' : tname ∈ userAuthTools := by simpa using hb
    by_cases hu : parsed.any (fun kv => kv.1 == "user_id") <;>
      by_cases hc : final_cookies != "" <;>
        by_cases hk : parsed.any (fun kv => kv.1 == "cookies") <;>
          simp [injectAuth, ha, hb', hu, hc, hk, hx, List.any_append]

/-- Witness for C8: concrete injection of both missing fields. -/
theorem inject_auth_spec_witness :
    injectAuth (some "u7") "sid=1" "get_user_info" [("query", "x")]
      = [("query", "x"), ("user_id", "u7"), ("cookies", "sid=1")] := by
  rw [(inject_auth_spec (some "u7") "sid=1" "get_user_info" [("query", "x")]).2 (by decide)]
  decide

/-- Claim C10: with all three optional fields empty, `update_notion_page`
returns the error record and performs no backend request; otherwise it PUTs
a payload holding exactly the non-empty fields. -/
theorem update_notion_page_spec (content notion_url summary : String) :
    ((content = "" ∧ notion_url = "" ∧ summary = "") →
        update_notion_page content notion_url summary
          = .noRequest "No fields to update provided") ∧
    (¬ (content = "" ∧ notion_url = "" ∧ summary = "") →
        update_notion_page content notion_url summary
            = .putRequest (updatePayload content notion_url summary) ∧
          ∀ kv, kv ∈ updatePayload content notion_url summary ↔
            ((kv = ("content", content) ∧ content ≠ "") ∨
             (kv = ("notion_url", notion_url) ∧ notion_url ≠ "") ∨
             (kv = ("summary", summary) ∧ summary ≠ ""))) := by
  constructor
  · rintro ⟨h1, h2, h3⟩
    simp [update_notion_page, updatePayload, h1, h2, h3]
  · intro h
    constructor
    · have hne : updatePayload content notion_url summary ≠ [] := by
        by_cases h1 : content = "" <;> by_cases h2 : notion_url = "" <;>
          by_cases h3 : summary = "" <;> simp_all [updatePayload]
      simp [update_notion_page, hne]
    · intro kv
      by_cases h1 : content = "" <;> by_cases h2 : notion_url = "" <;>
        by_cases h3 : summary = "" <;> simp_all [updatePayload]

/-- Witness for C10: empty guard and a one-field payload. -/
theorem update_notion_page_spec_witness :
    update_notion_page "" "" "" = .noRequest "No fields to update provided" ∧
    update_notion_page "new text" "" "" = .putRequest (updatePayload "new text" "" "") :=
  ⟨(update_notion_page_spec "" "" "").1 ⟨rfl, rfl, rfl⟩,
   ((update_notion_page_spec "new text" "" "").2 (by simp)).1⟩

/-- Claim C5 (amended): plain mode equals the joined structured rendering
with the five marker substrings removed sequentially in the source's fixed
order ("# " first); the edit is order-dependent, not order-independent,
because removing "# " first consumes part of the "## " and "### " markers. -/
theorem plain_mode_ordered_removal (blocks : List RNode) (format : String)
    (h : pyLower format = "plain") :
    (pageContent blocks format).1 = stripMarkersInOrder (pageContent blocks "markdown").1 ∧
    (pageContent blocks format).2 = "plain" := by
  have hmd : pyLower "markdown" ≠ "plain" := by decide
  constructor <;>
    simp [pageContent, h, hmd, stripMarkersInOrder, plainMarkers, plainReduce]

/-- Witness for C5 at a concrete tree with a case-insensitive format flag. -/
theorem plain_mode_ordered_removal_witness :
    (pageContent [.mk (.toDo true "task") []] "Plain").1
        = stripMarkersInOrder (pageContent [.mk (.toDo true "task") []] "markdown").1 ∧
    (pageContent [.mk (.toDo true "task") []] "Plain").2 = "plain" :=
  plain_mode_ordered_removal [.mk (.toDo true "task") []] "Plain" (by decide)

/-- Counterexample for C5: on the rendering of a single `heading_2` block the
code's plain output keeps a stray "#" (the "# " removal runs first), while
removing the markers in a different order ("## " first) erases the marker
completely — so the five removals are not order-independent and the output
is not "the string with every occurrence of each marker removed". -/
theorem plain_mode_not_order_independent :
    (pageContent [.mk (.heading2 "hello") []] "plain").1 = "#hello" ∧
    stripMarkersSwapped (joinedMarkdown [.mk (.heading2 "hello") []]) = "hello" ∧
    (pageContent [.mk (.heading2 "hello") []] "plain").1
      ≠ stripMarkersSwapped (joinedMarkdown [.mk (.heading2 "hello") []]) :=
  ⟨rfl, rfl, by decide⟩

/-! ### Retriever helper lemmas -/

theorem noFailList_mem {cs : List Block} (h : noFailList cs = true) :
    ∀ c ∈ cs, noFail c = true := by
  induction cs with
  | nil => intro c hc; cases hc
  | cons c cs ih =>
    rw [noFailList, Bool.and_eq_true] at h
    intro d hd
    rcases List.mem_cons.mp hd with rfl | hd
    · exact h.1
    · exact ih h.2 d hd

theorem fetchE_fails (d : Nat) (b : Block) (h : b.listFails = true) :
    fetchE d b = .error () := by
  cases d <;> simp [fetchE, h]

theorem fetchE_eq_fetchPure : ∀ (d : Nat) (b : Block), noFail b = true →
    fetchE d b = .ok (fetchPure d b.children) := by
  intro d
  induction d with
  | zero =>
    rintro ⟨i, hc, lf, cs⟩ hb
    rw [noFail, Bool.and_eq_true] at hb
    have hlf : lf = false := by simpa using hb.1
    subst hlf
    simp [fetchE, fetchPure, Block.listFails, Block.children]
  | succ d ih =>
    rintro ⟨i, hc, lf, cs⟩ hb
    rw [noFail, Bool.and_eq_true] at hb
    have hlf : lf = false := by simpa using hb.1
    subst hlf
    simp only [fetchE, fetchPure, Block.listFails, Block.children, Bool.false_eq_true,
      if_false, Except.ok.injEq]
    apply List.map_congr_left
    intro c hc'
    have hcf := noFailList_mem hb.2 c hc'
    obtain ⟨j, jc, jf, jcs⟩ := c
    simp [ih _ hcf, Block.children]

theorem fetchPure_depthClipped : ∀ (d : Nat) (cs : List Block),
    (fetchPure d cs).all (depthClipped d) = true := by
  intro d
  induction d with
  | zero =>
    intro cs
    simp [fetchPure, depthClipped, List.all_map, shallowF, Function.comp_def,
      FNode.children]
  | succ d ih =>
    intro cs
    rw [fetchPure, List.all_eq_true]
    intro n hn
    obtain ⟨c, hc', rfl⟩ := List.mem_map.mp hn
    simp only [depthClipped, FNode.children]
    by_cases hch : c.hasChildren = true
    · simp only [hch, if_true]
      exact ih c.children
    · simp [hch]

theorem corr_fetchPure : ∀ (d : Nat) (cs : List Block),
    corr d cs (fetchPure d cs) = true := by
  intro d
  induction d with
  | zero =>
    intro cs
    induction cs with
    | nil => simp [fetchPure, corr]
    | cons c cs ihc =>
      simp only [fetchPure, List.map_cons] at *
      simp [corr, shallowF, FNode.id, FNode.hasChildren, FNode.children, ihc]
  | succ d ih =>
    intro cs
    induction cs with
    | nil => simp [fetchPure, corr]
    | cons c cs ihc =>
      simp only [fetchPure, List.map_cons] at *
      by_cases hch : c.hasChildren = true <;>
        simp [corr, hch, FNode.id, FNode.hasChildren, FNode.children, ihc, ih]

/-- Claim C3: the depth-bounded fetch attaches non-empty children only
within `D` levels (every fetched node beyond the budget has an empty
children list), preserves every node's id and `has_children` flag, and with
`max_depth = 0` expands no accumulated child at all. -/
theorem fetch_depth_bound (D : Nat) (b : Block) (cs : List Block) :
    (noFail b = true → fetchE D b = .ok (fetchPure D b.children)) ∧
    (fetchPure D cs).all (depthClipped D) = true ∧
    corr D cs (fetchPure D cs) = true ∧
    (b.listFails = false → fetchE 0 b = .ok (b.children.map shallowF)) :=
  ⟨fetchE_eq_fetchPure D b, fetchPure_depthClipped D cs, corr_fetchPure D cs,
   fun h => by simp [fetchE, h]⟩

/-- Witness for C3 at a concrete three-level tree fetched with `D = 1`. -/
theorem fetch_depth_bound_witness :
    fetchE 1 (.mk 0 true false [.mk 1 true false [.mk 2 true false [.mk 3 false false []]]])
        = .ok (fetchPure 1 [.mk 1 true false [.mk 2 true false [.mk 3 false false []]]]) ∧
    (fetchPure 1 [.mk 1 true false [.mk 2 true false [.mk 3 false false []]]]).all
        (depthClipped 1) = true :=
  ⟨(fetch_depth_bound 1 (.mk 0 true false [.mk 1 true false [.mk 2 true false
      [.mk 3 false false []]]]) []).1 (by decide),
   (fetch_depth_bound 1 (.mk 0 true false [])
      [.mk 1 true false [.mk 2 true false [.mk 3 false false []]]]).2.1⟩

theorem zip_self_map {α β : Type} (f : α → β) :
    ∀ l : List α, l.zip (l.map f) = l.map (fun a => (a, f a))
  | [] => rfl
  | a :: l => by simp [zip_self_map f l]

/-- The list a successful fetch returned (the `.ok` payload). -/
def fetchRes (d : Nat) (b : Block) : List FNode :=
  match fetchE d b with
  | .ok l => l
  | .error _ => []

/-- Claim C4: when the listing call for `b` itself succeeds, the fetch
returns one node per accumulated child — ids and flags intact, in order —
and any child whose own recursive fetch raises contributes its node with an
empty children list; the siblings are unaffected. -/
theorem fetch_fault_isolation (d : Nat) (b : Block) (h : b.listFails = false) :
    fetchE (d + 1) b = .ok (fetchRes (d + 1) b) ∧
    (fetchRes (d + 1) b).map FNode.id = b.children.map Block.id ∧
    (fetchRes (d + 1) b).map FNode.hasChildren = b.children.map Block.hasChildren ∧
    ∀ p ∈ b.children.zip (fetchRes (d + 1) b),
      p.1.listFails = true → p.2.children = [] := by
  obtain ⟨i, hc, lf, cs⟩ := b
  simp only [Block.listFails] at h
  subst h
  have hres : fetchRes (d + 1) (Block.mk i hc false cs)
      = cs.map (fun c =>
          FNode.mk c.id c.hasChildren
            (if c.hasChildren = true then
              match fetchE d c with
              | .ok l => l
              | .error _ => []
            else [])) := by
    simp [fetchRes, fetchE, Block.children, Block.listFails]
  refine ⟨by simp [fetchE, hres, Block.children, Block.listFails], ?_, ?_, ?_⟩
  · rw [hres]
    simp [Block.children, List.map_map, FNode.id, Function.comp_def]
  · rw [hres]
    simp [Block.children, List.map_map, FNode.hasChildren, Function.comp_def]
  · intro p hp hfail
    rw [hres] at hp
    simp only [Block.children] at hp
    rw [zip_self_map] at hp
    obtain ⟨c, hcmem, rfl⟩ := List.mem_map.mp hp
    simp only at hfail
    simp only [FNode.children]
    rw [fetchE_fails d c hfail]
    by_cases hch : c.hasChildren = true <;> simp [hch]

/-- Witness for C4: the spec's fault-isolation scenario — a root with two
children where the second child's listing call raises; both children come
back, the failing one with an empty children list. -/
theorem fetch_fault_isolation_witness :
    fetchE 1 (.mk 0 true false [.mk 1 false false [], .mk 2 true true [.mk 3 false false []]])
        = .ok (fetchRes 1 (.mk 0 true false
            [.mk 1 false false [], .mk 2 true true [.mk 3 false false []]])) ∧
    (fetchRes 1 (.mk 0 true false [.mk 1 false false [], .mk 2 true true
        [.mk 3 false false []]])).map FNode.id = [1, 2] ∧
    (FNode.mk 2 true []).children = [] := by
  have h := fetch_fault_isolation 0
    (.mk 0 true false [.mk 1 false false [], .mk 2 true true [.mk 3 false false []]]) rfl
  refine ⟨h.1, ?_, ?_⟩
  · rw [h.2.1]
    rfl
  · exact h.2.2.2 (Block.mk 2 true true [.mk 3 false false []], FNode.mk 2 true [])
      (List.Mem.tail _ (List.Mem.head _)) rfl

/-! ### Orchestrator helper lemmas -/

theorem chatLoopWeb_completions_le (complete : List Msg → Completion)
    (decode : String → Option Args) (encode : Args → String)
    (callTool : String → Args → String) (user_id : Option String)
    (final_cookies : String) :
    ∀ (fuel : Nat) (msgs : List Msg),
      (chatLoopWeb complete decode encode callTool user_id final_cookies
        fuel msgs).completions ≤ fuel := by
  intro fuel
  induction fuel with
  | zero => intro msgs; simp [chatLoopWeb]
  | succ n ih =>
    intro msgs
    simp only [chatLoopWeb]
    cases h : (complete (msgs.map sanitizeMsg)).toolCalls with
    | nil => simp
    | cons tc rest => simpa using Nat.succ_le_succ (ih _)

theorem chatLoopWeb_always_tools (complete : List Msg → Completion)
    (decode : String → Option Args) (encode : Args → String)
    (callTool : String → Args → String) (user_id : Option String)
    (final_cookies : String) (hyp : ∀ ms, (complete ms).toolCalls ≠ []) :
    ∀ (fuel : Nat) (msgs : List Msg),
      (chatLoopWeb complete decode encode callTool user_id final_cookies
          fuel msgs).response = fallbackMessage ∧
      (chatLoopWeb complete decode encode callTool user_id final_cookies
          fuel msgs).completions = fuel := by
  intro fuel
  induction fuel with
  | zero => intro msgs; exact ⟨rfl, rfl⟩
  | succ n ih =>
    intro msgs
    simp only [chatLoopWeb]
    cases h : (complete (msgs.map sanitizeMsg)).toolCalls with
    | nil => exact absurd h (hyp _)
    | cons tc rest =>
      refine ⟨(ih _).1, ?_⟩
      simpa using (ih _).2

/-- Claim C1: the orchestrator issues at most 10 completion requests; if
every completion response requests at least one tool call, it performs
exactly 10 cycles, issues no 11th request, and returns the fixed fallback
apology string rather than looping forever or raising. -/
theorem process_chat_iteration_cap (complete : List Msg → Completion)
    (decode : String → Option Args) (encode : Args → String)
    (callTool : String → Args → String) (message : String)
    (user_id cookies : Option String) :
    (process_chat_with_ai complete decode encode callTool
        message user_id cookies).completions ≤ 10 ∧
    ((∀ ms, (complete ms).toolCalls ≠ []) →
      (process_chat_with_ai complete decode encode callTool
          message user_id cookies).response = fallbackMessage ∧
      (process_chat_with_ai complete decode encode callTool
          message user_id cookies).completions = 10) := by
  constructor
  · exact chatLoopWeb_completions_le complete decode encode callTool user_id
      (cookies.getD "") 10 _
  · intro hyp
    exact chatLoopWeb_always_tools complete decode encode callTool user_id
      (cookies.getD "") hyp 10 _

/-- Witness for C1: a completion oracle that always requests one tool call. -/
theorem process_chat_iteration_cap_witness :
    (process_chat_with_ai (fun _ => ⟨none, [⟨"c1", "notion_search", "q"⟩]⟩)
        (fun _ => some []) (fun _ => "e") (fun _ _ => "r") "hi"
        (some "u1") none).response = fallbackMessage ∧
    (process_chat_with_ai (fun _ => ⟨none, [⟨"c1", "notion_search", "q"⟩]⟩)
        (fun _ => some []) (fun _ => "e") (fun _ _ => "r") "hi"
        (some "u1") none).completions = 10 :=
  (process_chat_iteration_cap (fun _ => ⟨none, [⟨"c1", "notion_search", "q"⟩]⟩)
      (fun _ => some []) (fun _ => "e") (fun _ _ => "r") "hi"
      (some "u1") none).2 (fun _ => by simp)

theorem clientCycle_counts (decode : String → Option Args) (encode : Args → String)
    (callTool : String → Args → String) :
    ∀ tcs : List ToolCall,
      (clientCycle decode encode callTool tcs).countP Msg.isAssistantMsg = tcs.length ∧
      (clientCycle decode encode callTool tcs).countP Msg.isToolMsg = tcs.length := by
  intro tcs
  induction tcs with
  | nil => exact ⟨rfl, rfl⟩
  | cons tc tcs ih =>
    simp only [clientCycle, List.flatMap_cons, List.countP_append, List.countP_cons] at *
    simp [Msg.isAssistantMsg, Msg.isToolMsg, ih.1, ih.2, Nat.add_comm]

theorem webCycle_eq (decode : String → Option Args) (encode : Args → String)
    (callTool : String → Args → String) (user_id : Option String)
    (final_cookies : String) (tcs : List ToolCall) :
    webCycle decode encode callTool user_id final_cookies tcs
      = Msg.assistant (tcs.map (fun tc => ⟨tc.id, tc.name,
            encode (injectAuth user_id final_cookies tc.name (parsedArgs decode tc))⟩))
        :: tcs.map (fun tc => Msg.tool tc.id tc.name
            (callTool tc.name (injectAuth user_id final_cookies tc.name (parsedArgs decode tc)))) := by
  simp [webCycle, List.map_map, Function.comp_def]

/-- Claim C7 (amended): in `process_chat_with_ai` a cycle with N requested
calls appends exactly one assistant message recording all N calls (ids in
request order) followed by exactly N tool messages, one per call in the same
order with the matching id, and the two-cycle scenario terminates after
exactly 2 completion requests; in `chat_loop` of src/client.py, however, the
same cycle appends one assistant message PER call (N of them), not one. -/
theorem orchestrator_cycle_message_shape
    (decode : String → Option Args) (encode : Args → String)
    (callTool : String → Args → String) (user_id : Option String)
    (final_cookies : String) (tcs : List ToolCall)
    (complete : List Msg → Completion) (message : String)
    (cookies : Option String) (tc0 : ToolCall) :
    (webCycle decode encode callTool user_id final_cookies tcs
        = Msg.assistant (tcs.map (fun tc => ⟨tc.id, tc.name,
              encode (injectAuth user_id final_cookies tc.name (parsedArgs decode tc))⟩))
          :: tcs.map (fun tc => Msg.tool tc.id tc.name
              (callTool tc.name (injectAuth user_id final_cookies tc.name
                (parsedArgs decode tc))))) ∧
    (webCycle decode encode callTool user_id final_cookies tcs).countP
        Msg.isAssistantMsg = 1 ∧
    (webCycle decode encode callTool user_id final_cookies tcs).countP
        Msg.isToolMsg = tcs.length ∧
    (clientCycle decode encode callTool tcs).countP Msg.isAssistantMsg = tcs.length ∧
    ((complete ((initialMessages message user_id (cookies.getD "")).map
          sanitizeMsg)).toolCalls = [tc0] →
     (complete ((initialMessages message user_id (cookies.getD "")
          ++ webCycle decode encode callTool user_id (cookies.getD "") [tc0]).map
            sanitizeMsg)).toolCalls = [] →
      (process_chat_with_ai complete decode encode callTool
          message user_id cookies).completions = 2 ∧
      (process_chat_with_ai complete decode encode callTool
          message user_id cookies).messages
        = initialMessages message user_id (cookies.getD "")
            ++ webCycle decode encode callTool user_id (cookies.getD "") [tc0]) := by
  refine ⟨webCycle_eq decode encode callTool user_id final_cookies tcs, ?_, ?_,
    (clientCycle_counts decode encode callTool tcs).1, ?_⟩
  · rw [webCycle_eq]
    rw [List.countP_cons_of_pos _ _ (by rfl)]
    rw [List.countP_eq_zero.mpr ?_]
    · intro m hm
      obtain ⟨tc, _, rfl⟩ := List.mem_map.mp hm
      simp [Msg.isAssistantMsg]
  · rw [webCycle_eq]
    rw [List.countP_cons_of_neg _ _ (by simp [Msg.isToolMsg])]
    rw [List.countP_eq_length.mpr ?_, List.length_map]
    intro m hm
    obtain ⟨tc, _, rfl⟩ := List.mem_map.mp hm
    rfl
  · intro h1 h2
    rw [List.map_append] at h2
    have step : process_chat_with_ai complete decode encode callTool message user_id cookies
        = chatLoopWeb complete decode encode callTool user_id (cookies.getD "") 10
            (initialMessages message user_id (cookies.getD "")) := rfl
    rw [step, show (10 : Nat) = 9 + 1 from rfl]
    simp only [chatLoopWeb, h1]
    simp [h2]

/-- A completion oracle for the two-cycle scenario: one tool call on the
first request (the two seed messages), no tool calls afterwards. -/
def demoComplete : List Msg → Completion :=
  fun ms => if ms.length == 2 then ⟨none, [⟨"c1", "get_user_info", ""⟩]⟩
    else ⟨some "done", []⟩

/-- Witness for C7: the concrete two-cycle scenario terminates after exactly
2 completion requests having appended exactly one assistant and one tool
message. -/
theorem orchestrator_cycle_message_shape_witness :
    (process_chat_with_ai demoComplete (fun _ => some []) (fun _ => "e")
        (fun _ _ => "r") "hi" (some "u1") none).completions = 2 ∧
    (process_chat_with_ai demoComplete (fun _ => some []) (fun _ => "e")
        (fun _ _ => "r") "hi" (some "u1") none).messages
      = initialMessages "hi" (some "u1") ""
          ++ webCycle (fun _ => some []) (fun _ => "e") (fun _ _ => "r")
              (some "u1") "" [⟨"c1", "get_user_info", ""⟩] :=
  (orchestrator_cycle_message_shape (fun _ => some []) (fun _ => "e")
      (fun _ _ => "r") (some "u1") "" [] demoComplete "hi" none
      ⟨"c1", "get_user_info", ""⟩).2.2.2.2 rfl rfl

/-- Counterexample for C7: in `chat_loop` of src/client.py a cycle with two
tool calls appends two assistant messages — one per call — instead of
exactly one assistant message recording both calls. -/
theorem client_cycle_two_assistant_messages :
    (clientCycle (fun _ => some []) (fun _ => "e") (fun _ _ => "r")
        [⟨"c1", "t1", "a1"⟩, ⟨"c2", "t2", "a2"⟩]).countP Msg.isAssistantMsg = 2 ∧
    (2 : Nat) ≠ 1 :=
  ⟨rfl, by decide⟩

theorem adaptedName_adapter (t : ToolDesc) :
    adaptedName (mcp_schema_to_openai_tool t)
      = some (strip_surrogates (chooseName t)) := rfl

theorem adaptedParams_adapter (t : ToolDesc) :
    adaptedParams (mcp_schema_to_openai_tool t)
      = some (sanitize (chooseSchema t)) := rfl

/-- Claim C9 (amended): the adapter yields exactly K entries, each carrying
a `parameters` field that is always present (the sanitized chosen schema,
an object whenever the chosen schema is one — in particular whenever both
schema field names are absent), and a non-empty `name` provided the chosen
pre-strip name contains at least one non-surrogate code point; the adapter
is a pure function whose output is sanitize-stable. -/
theorem mcp_schema_adapter_spec (registry : List ToolDesc) :
    (registry.map mcp_schema_to_openai_tool).length = registry.length ∧
    (∀ t : ToolDesc, adaptedParams (mcp_schema_to_openai_tool t)
        = some (sanitize (chooseSchema t))) ∧
    (∀ t : ToolDesc, isObjectSchema (chooseSchema t) = true →
        isObjectSchema (sanitize (chooseSchema t)) = true) ∧
    (∀ t : ToolDesc, hasNonSurrogate (chooseName t) = true →
        hasNonEmptyName (mcp_schema_to_openai_tool t) = true) ∧
    (∀ t : ToolDesc, sanitize (mcp_schema_to_openai_tool t)
        = mcp_schema_to_openai_tool t) := by
  refine ⟨List.length_map registry mcp_schema_to_openai_tool, adaptedParams_adapter,
    ?_, ?_, ?_⟩
  · intro t h
    cases hs : chooseSchema t <;> simp_all [isObjectSchema, sanitize]
  · intro t h
    have hne := strip_surrogates_ne_nil _ h
    simp [hasNonEmptyName, adaptedName_adapter, hne]
  · intro t
    have k1 : strip_surrogates (pystr "type") = pystr "type" := by decide
    have k2 : strip_surrogates (pystr "function") = pystr "function" := by decide
    have k3 : strip_surrogates (pystr "name") = pystr "name" := by decide
    have k4 : strip_surrogates (pystr "description") = pystr "description" := by decide
    have k5 : strip_surrogates (pystr "parameters") = pystr "parameters" := by decide
    simp [mcp_schema_to_openai_tool, sanitize, sanitizeEntries, sanitizeKey,
      k1, k2, k3, k4, k5, strip_surrogates_idem, sanitize_idem]

/-- Witness for C9 at a concrete one-entry registry. -/
theorem mcp_schema_adapter_spec_witness :
    hasNonEmptyName (mcp_schema_to_openai_tool
        ⟨some (pystr "notion_search"), none, some (pystr "Searches pages"),
         none, none⟩) = true ∧
    isObjectSchema (sanitize (chooseSchema
        ⟨some (pystr "notion_search"), none, some (pystr "Searches pages"),
         none, none⟩)) = true :=
  ⟨(mcp_schema_adapter_spec []).2.2.2.1 _ (by decide),
   (mcp_schema_adapter_spec []).2.2.1 _ (by decide)⟩

/-- Counterexample for C9: a descriptor whose name field is present and
truthy but consists of one lone surrogate code point; the adapter does not
fall back and emits an entry whose `function.name` is the empty string. -/
theorem adapter_surrogate_name_empty :
    adaptedName (mcp_schema_to_openai_tool
        ⟨some [0xD800], none, none, none, none⟩) = some [] ∧
    hasNonEmptyName (mcp_schema_to_openai_tool
        ⟨some [0xD800], none, none, none, none⟩) = false :=
  ⟨rfl, rfl⟩

/-! ### Renderer helper lemmas -/

theorem takeWhile_space_replicate (m : Nat) (rd : List Char)
    (h : headNotSpaceL rd = true) :
    ((List.replicate m ' ' ++ rd).takeWhile (fun c => c == ' ')).length = m := by
  induction m with
  | zero =>
    cases rd with
    | nil => rfl
    | cons c l =>
      have hc : (c == ' ') = false := by simpa [headNotSpaceL] using h
      simp [List.takeWhile_cons, hc]
  | succ n ih =>
    rw [List.replicate_succ, List.cons_append, List.takeWhile_cons]
    simp only [show (' ' == ' ') = true from rfl, if_true, List.length_cons, ih]

theorem leadingSpaces_of_data (s : String) (d : Nat) (rd : List Char)
    (hs : s.data = List.replicate (2 * d) ' ' ++ rd)
    (h : headNotSpaceL rd = true) :
    leadingSpaces s = 2 * d := by
  unfold leadingSpaces
  rw [hs]
  exact takeWhile_space_replicate _ _ h

theorem rstripChars_cons_of_not_ws (c : Char) (l : List Char)
    (h : c.isWhitespace = false) :
    rstripChars (c :: l) = c :: rstripChars l := by
  rw [rstripChars]
  cases hr : rstripChars l with
  | nil => simp [h]
  | cons x xs => simp

theorem rstripChars_replicate_append (n : Nat) (c : Char) (l : List Char)
    (h : c.isWhitespace = false) :
    rstripChars (List.replicate n ' ' ++ c :: l)
      = List.replicate n ' ' ++ rstripChars (c :: l) := by
  induction n with
  | zero => simp
  | succ m ih =>
    rw [List.replicate_succ, List.cons_append, rstripChars, ih,
      rstripChars_cons_of_not_ws c l h]
    cases hx : List.replicate m ' ' ++ c :: rstripChars l with
    | nil => exact absurd hx (by simp)
    | cons y ys => rw [List.cons_append, hx]

theorem leadingSpaces_rstrip_of_data (s : String) (d : Nat) (c : Char)
    (rest : List Char) (hs : s.data = List.replicate (2 * d) ' ' ++ c :: rest)
    (hc : c.isWhitespace = false) :
    leadingSpaces (pyRstrip s) = 2 * d := by
  have hcs : (c == ' ') = false := by
    by_cases hh : c = ' '
    · subst hh; exact absurd hc (by decide)
    · simp only [beq_eq_false_iff_ne, ne_eq]; exact hh
  unfold leadingSpaces pyRstrip
  rw [show (String.mk (rstripChars s.data)).data = rstripChars s.data from rfl, hs,
    rstripChars_replicate_append _ _ _ hc, rstripChars_cons_of_not_ws _ _ hc]
  exact takeWhile_space_replicate _ _ (by simp [headNotSpaceL, bne, hcs])

theorem calloutGlyph_ne_empty (e : Option String) : calloutGlyph e ≠ "" := by
  cases e with
  | none => simp [calloutGlyph]
  | some s =>
    by_cases h : s = "" <;> simp [calloutGlyph, h]

theorem headNotSpaceL_append_of_ne (x : String) (ys : List Char)
    (hx : headNotSpace x = true) (hne : x ≠ "") :
    headNotSpaceL (x.data ++ ys) = true := by
  cases hd : x.data with
  | nil =>
    exact absurd (String.ext (hd.trans rfl)) hne
  | cons c t =>
    rw [headNotSpace, hd] at hx
    simpa [headNotSpaceL] using hx

theorem leadingSpaces_indent_append (d : Nat) (r : String)
    (h : headNotSpaceL r.data = true) :
    leadingSpaces (indentStr d ++ r) = 2 * d :=
  leadingSpaces_of_data _ d r.data (by rw [String.data_append]; rfl) h

theorem leadingSpaces_rstrip_indent_append (d : Nat) (r : String) (c : Char)
    (rest : List Char) (hr : r.data = c :: rest) (hc : c.isWhitespace = false) :
    leadingSpaces (pyRstrip (indentStr d ++ r)) = 2 * d :=
  leadingSpaces_rstrip_of_data _ d c rest (by rw [String.data_append, hr]; rfl) hc

/-- The backquote character, the first code point of a code fence. -/
def backquoteChar : Char := "`".data.headD ' '

theorem blockLines_leadingSpaces (d : Nat) (t : BType) (h : indentReady t = true) :
    ∀ l ∈ indentedLines d t, leadingSpaces l = 2 * d := by
  cases t with
  | heading1 text =>
    intro l hl
    simp only [indentedLines, blockLines, List.mem_singleton] at hl
    subst hl
    rw [String.append_assoc]
    exact leadingSpaces_indent_append d _ rfl
  | heading2 text =>
    intro l hl
    simp only [indentedLines, blockLines, List.mem_singleton] at hl
    subst hl
    rw [String.append_assoc]
    exact leadingSpaces_indent_append d _ rfl
  | heading3 text =>
    intro l hl
    simp only [indentedLines, blockLines, List.mem_singleton] at hl
    subst hl
    rw [String.append_assoc]
    exact leadingSpaces_indent_append d _ rfl
  | paragraph text =>
    intro l hl
    simp only [indentedLines, blockLines, List.mem_singleton] at hl
    subst hl
    exact leadingSpaces_indent_append d _ (by simpa [indentReady, headNotSpace] using h)
  | bulleted text =>
    intro l hl
    simp only [indentedLines, blockLines, List.mem_singleton] at hl
    subst hl
    rw [String.append_assoc]
    exact leadingSpaces_indent_append d _ rfl
  | numbered text =>
    intro l hl
    simp only [indentedLines, blockLines, List.mem_singleton] at hl
    subst hl
    rw [String.append_assoc]
    exact leadingSpaces_indent_append d _ rfl
  | toDo checked text =>
    intro l hl
    simp only [indentedLines, blockLines, List.mem_singleton] at hl
    subst hl
    rw [String.append_assoc, String.append_assoc, String.append_assoc]
    cases checked <;> exact leadingSpaces_indent_append d _ rfl
  | quote text =>
    intro l hl
    simp only [indentedLines, blockLines, List.mem_singleton] at hl
    subst hl
    rw [String.append_assoc]
    exact leadingSpaces_indent_append d _ rfl
  | callout emoji text =>
    intro l hl
    simp only [indentedLines, blockLines, List.mem_singleton] at hl
    subst hl
    rw [String.append_assoc, String.append_assoc]
    refine leadingSpaces_indent_append d _ ?_
    rw [String.data_append]
    exact headNotSpaceL_append_of_ne _ _ (by simpa [indentReady] using h)
      (calloutGlyph_ne_empty emoji)
  | code language text =>
    intro l hl
    simp only [indentedLines, List.mem_cons, List.mem_singleton,
      List.not_mem_nil, or_false] at hl
    rcases hl with hl | hl <;> subst hl
    · rw [String.append_assoc]
      exact leadingSpaces_rstrip_indent_append d _ backquoteChar
        ("``".data ++ language.data) rfl (by decide)
    · exact leadingSpaces_indent_append d _ rfl
  | toggle text =>
    intro l hl
    simp only [indentedLines, blockLines, List.mem_singleton] at hl
    subst hl
    rw [String.append_assoc]
    exact leadingSpaces_indent_append d _ rfl
  | divider =>
    intro l hl
    simp only [indentedLines, blockLines, List.mem_singleton] at hl
    subst hl
    exact leadingSpaces_indent_append d _ rfl
  | image caption =>
    intro l hl
    simp only [indentedLines, blockLines, List.mem_singleton] at hl
    subst hl
    rw [String.append_assoc]
    exact leadingSpaces_rstrip_indent_append d _ '!'
      ("[image]  ".data ++ caption.data) rfl (by decide)
  | other tag text =>
    intro l hl
    simp only [indentedLines, blockLines, List.mem_singleton] at hl
    subst hl
    rw [String.append_assoc, String.append_assoc, String.append_assoc]
    exact leadingSpaces_rstrip_indent_append d _ '['
      ((tag ++ ("] " ++ text)).data) rfl (by decide)

theorem blocks_to_markdown_preorder (bs : List RNode) (d : Nat) :
    blocks_to_markdown bs d
      = bs.flatMap (fun b =>
          blockLines d b.btype ++ blocks_to_markdown b.children (d + 1)) := by
  induction bs with
  | nil => rfl
  | cons b rest ih =>
    obtain ⟨t, cs⟩ := b
    cases cs with
    | nil =>
      simp [blocks_to_markdown, nodeMarkdown, ih, RNode.btype, RNode.children]
    | cons c cs' =>
      simp [blocks_to_markdown, nodeMarkdown, ih, RNode.btype, RNode.children,
        List.append_assoc]

/-- Claim C2 (amended): the renderer is total and emits every node exactly
once in pre-order — each node's own line(s) immediately followed by its
children's lines at depth + 1 — and, for stripped inputs, every emitted line
of a node at depth d starts with exactly 2*d spaces EXCEPT the raw code-text
line of a code block, which is emitted with no indentation; the single
"hello" paragraph renders as "hello" at depth 0 and "    hello" at depth 2. -/
theorem renderer_preorder_indentation (bs : List RNode) (d : Nat) (t : BType) :
    (blocks_to_markdown bs d
        = bs.flatMap (fun b =>
            blockLines d b.btype ++ blocks_to_markdown b.children (d + 1))) ∧
    (indentReady t = true → ∀ l ∈ indentedLines d t, leadingSpaces l = 2 * d) ∧
    blocks_to_markdown [.mk (.paragraph "hello") []] 0 = ["hello"] ∧
    blocks_to_markdown [.mk (.paragraph "hello") []] 2 = ["    hello"] :=
  ⟨blocks_to_markdown_preorder bs d, blockLines_leadingSpaces d t, rfl, rfl⟩

/-- Witness for C2 at a concrete quote block rendered at depth 1. -/
theorem renderer_preorder_indentation_witness :
    leadingSpaces "  > cited" = 2 * 1 :=
  (renderer_preorder_indentation [] 1 (.quote "cited")).2.1 (by decide) "  > cited"
    (by rw [show indentedLines 1 (.quote "cited") = ["  > cited"] from rfl]
        exact List.mem_singleton.mpr rfl)

/-- Counterexample for C2: a code block nested at depth 1 emits its raw
code-text line with no indentation, not with 2*1 = 2 leading spaces. -/
theorem renderer_code_line_unindented :
    blocks_to_markdown [.mk (.toggle "t") [.mk (.code "py" "print(1)") []]] 0
        = ["▸ t", "  ```py", "print(1)", "  ```"] ∧
    leadingSpaces "print(1)" ≠ 2 * 1 :=
  ⟨rfl, by decide⟩
